import Mathlib

/-!
Verification of the handwriting feature-extraction and comparison pipeline
of the `detector-signatures` repository.

The source is Python (OpenCV + NumPy).  The embedding below follows the
source modules:

* `src/modules/preprocessing.py`   — `segment_text`
* `src/modules/general_features.py` — `_find_components`, `compute_letter_sizes`,
  `compute_spacing`, `compute_slant`, `compute_connectivity`, `assess_skill_level`
* `src/modules/comparative.py`     — `_categorize_size`, `compare_images`,
  `interpret_similarity`
* `src/modules/time_gap.py`        — `analyze_time_gap`
* `src/modules/basic_analysis.py`  — `analyze_handwriting`
* `src/modules/imitation.py`       — `analyze_imitation`
* `src/modules/left_hand.py`       — `analyze_left_hand`

Modelling conventions:

* A binary image (NumPy 2-D `uint8` array) is a `Mask := List (List ℕ)`,
  a list of rows of pixel values.
* Python floats are modelled by `ℚ`; the float literals `0.1`, `1e-3`,
  `0.75`, `0.5` are modelled by the exact rationals they denote in the
  source text.
* `np.std` returns the square root of the population variance, which is
  irrational in general.  Extractors that the source makes return a
  standard deviation are embedded returning the population *variance*
  instead; every property checked here only uses a standard deviation
  through "std = 0", "std ≈ 0" or via an uninterpreted square-root
  oracle, and std = 0 ↔ variance = 0, std = √variance.
* `cv2.findContours(..., RETR_EXTERNAL, ...)` is modelled as the list of
  8-connected foreground components (computed by row-run merging) and
  `cv2.contourArea` as the pixel count of a component.  All concrete
  images used below are chosen so that the area filters behave the same
  under the polygonal contour area and under the pixel count.
* `cv2.fitEllipse` (used only by `compute_slant`) is floating-point
  geometry that cannot be reproduced arithmetically; functions that
  consume a slant angle take the per-image slant as an oracle parameter
  `fit : Mask → ℚ`.
* Image loading (`cv2.imread`) is modelled by an environment
  `env : String → Option Mask` mapping a path to the preprocessed binary
  mask of the image, `none` when the file cannot be decoded
  (`preprocess_image` itself is total, so a load-and-preprocess failure
  is exactly a load failure).
-/

set_option maxRecDepth 4000

/-! ## Basic list statistics (NumPy `mean` / population variance) -/

/-- Population mean of a list of rationals (`np.mean`).  The sources guard
every call against the empty list. -/
def qmean (l : List ℚ) : ℚ := l.sum / l.length

/-- Population variance of a list of rationals.  `np.std l = √(qvariance l)`. -/
def qvariance (l : List ℚ) : ℚ := ((l.map (fun x => (x - qmean l) ^ 2)).sum) / l.length

/-- Concatenation of a list of lists (used to model accumulating into a
Python list across loop iterations). -/
def listJoin {α : Type} (L : List (List α)) : List α := L.foldr (· ++ ·) []

/-- Indices (starting from `i0`) of the entries of a list satisfying `p`:
this is NumPy's `np.where(cond)[0]` on a 1-D array. -/
def idxFilter {α : Type} (p : α → Bool) : List α → ℕ → List ℕ
  | [], _ => []
  | v :: vs, i => if p v then i :: idxFilter p vs (i + 1) else idxFilter p vs (i + 1)

/-- Differences of consecutive entries (`np.diff`); entries are `ℕ`
because the source only applies it to strictly increasing index arrays. -/
def diffsOf (l : List ℕ) : List ℕ := (l.zip l.tail).map (fun q => q.2 - q.1)

/-! ## Masks and row projections (`general_features.py` lines 59-63, 122-125;
`preprocessing.py` lines 62-69) -/

/-- A binary image: a list of rows of `uint8` pixel values. -/
abbrev Mask := List (List ℕ)

/-- Foreground count of one row: `np.sum(row // 255)`. -/
def rowProj (row : List ℕ) : ℕ := (row.map (fun v => v / 255)).sum

/-- Row-wise projection profile: `np.sum(binary_image // 255, axis=1)`. -/
def maskProj (m : Mask) : List ℕ := m.map rowProj

/-- Maximum of the projection profile (`projection.max()`, 0 for an empty image). -/
def maxProj (m : Mask) : ℕ := (maskProj m).foldr max 0

/-- Row selection threshold of `compute_spacing` / `compute_connectivity`:
`0.1 * rows_sum.max() if rows_sum.max() > 0 else 0`. -/
def rowThreshold (m : Mask) : ℚ := if 0 < maxProj m then (1 / 10 : ℚ) * maxProj m else 0

/-- `text_rows = np.where(rows_sum > threshold)[0]`. -/
def textRows (m : Mask) : List ℕ :=
  idxFilter (fun v : ℕ => decide (rowThreshold m < (v : ℚ))) (maskProj m) 0

/-- Row `r` of the image (`binary_image[row]`; the sources only index rows
that exist). -/
def rowAt (m : Mask) (r : ℕ) : List ℕ := m.getD r []

/-- `positions = np.where(line > 0)[0]`: column indices of foreground pixels. -/
def positionsOf (row : List ℕ) : List ℕ := idxFilter (fun v => decide (0 < v)) row 0

/-! ## Connected components (model of `cv2.findContours` + `cv2.contourArea`
,+ `cv2.boundingRect`, consumed by `_find_components`) -/

/-- A maximal horizontal run of foreground pixels in one row;
`lo`/`hi` are the inclusive column bounds. -/
structure Run where
  row : ℕ
  lo : ℕ
  hi : ℕ
deriving DecidableEq

/-- A connected component, as the list of its row runs. -/
abbrev Comp := List Run

/-- Group a strictly increasing list of column positions of row `r` into
maximal runs of consecutive columns. -/
def runsFromPositions (r : ℕ) (ps : List ℕ) : List Run :=
  (ps.foldl (fun acc c =>
    match acc with
    | [] => [⟨r, c, c⟩]
    | u :: rest => if c = u.hi + 1 then ⟨r, u.lo, c⟩ :: rest else ⟨r, c, c⟩ :: u :: rest)
    []).reverse

/-- 8-connectivity between a run `q` of the previous row and a run `u` of
the current row: the column ranges touch up to a diagonal. -/
def touches8 (q u : Run) : Bool := decide (q.lo ≤ u.hi + 1) && decide (u.lo ≤ q.hi + 1)

/-- Merge a run `u` of row `r` into the pool of still-open components:
all pool components having a run in row `r - 1` that touches `u` are
fused with `u` into a single component. -/
def insertRun (r : ℕ) (u : Run) (pool : List Comp) : List Comp :=
  let parts := pool.partition (fun c => c.any (fun q => decide (q.row + 1 = r) && touches8 q u))
  (u :: listJoin parts.1) :: parts.2

/-- One row of connected-component labelling: merge the row's runs into the
open pool, then retire every pool component without a run in this row. -/
def componentsStep (acc : List Comp × List Comp) (rowIdx : List ℕ × ℕ) : List Comp × List Comp :=
  let r := rowIdx.2
  let pool := (runsFromPositions r (positionsOf rowIdx.1)).foldl (fun p u => insertRun r u p) acc.2
  let parts := pool.partition (fun c => c.any (fun q => decide (q.row = r)))
  (acc.1 ++ parts.2, parts.1)

/-- All 8-connected foreground components of a mask.  This models the
contour list returned by `cv2.findContours(binary_image, RETR_EXTERNAL,
CHAIN_APPROX_SIMPLE)` (faithful whenever no component lies inside a hole
of another, which holds for every image considered here). -/
def componentsOf (m : Mask) : List Comp :=
  let res := (m.zip (List.range m.length)).foldl componentsStep ([], [])
  res.1 ++ res.2

/-- Pixel count of a component, modelling `cv2.contourArea(cnt)` in the
area filters (the polygonal contour area is at most the pixel count; the
concrete images below keep both on the same side of every threshold). -/
def compArea (c : Comp) : ℕ := (c.map (fun u => u.hi + 1 - u.lo)).sum

/-- Bounding-box height of a component: `cv2.boundingRect(cnt)` returns
`h = maxRow - minRow + 1`. -/
def compHeight (c : Comp) : ℕ :=
  match c.map Run.row with
  | [] => 0
  | r :: rs => (rs.foldl max r) + 1 - (rs.foldl min r)

/-! ## `general_features.py` -/

/-- `_find_components(binary_image, min_area)` (lines 12-25): the contours
whose area is at least `min_area`. -/
def find_components (m : Mask) (min_area : ℕ) : List Comp :=
  (componentsOf m).filter (fun c => decide (min_area ≤ compArea c))

/-- The bounding-box heights collected by `compute_letter_sizes`
(lines 38-42): one height per component passing the noise floor. -/
def heightsList (m : Mask) : List ℕ := (find_components m 10).map compHeight

/-- `compute_letter_sizes` (lines 28-46): mean and spread of the
bounding-box heights of the components (noise floor 10).  Second slot is
the population variance; the source returns `np.std`, its square root. -/
def compute_letter_sizes (m : Mask) : ℚ × ℚ :=
  if heightsList m = [] then (0, 0)
  else (qmean ((heightsList m).map (fun n : ℕ => (n : ℚ))),
    qvariance ((heightsList m).map (fun n : ℕ => (n : ℚ))))

/-- The `spacings` sample accumulated by `compute_spacing` (lines 66-77):
for every text row, each inter-pixel difference larger than 1
contributes `diff - 1`. -/
def spacingsList (m : Mask) : List ℕ :=
  listJoin ((textRows m).map (fun r =>
    ((diffsOf (positionsOf (rowAt m r))).filter (fun g => decide (1 < g))).map (fun g => g - 1)))

/-- `compute_spacing` (lines 49-81): mean and spread of the spacing
sample (population variance; the source returns `np.std`). -/
def compute_spacing (m : Mask) : ℚ × ℚ :=
  if textRows m = [] then (0, 0)
  else if spacingsList m = [] then (0, 0)
  else (qmean ((spacingsList m).map (fun n : ℕ => (n : ℚ))),
    qvariance ((spacingsList m).map (fun n : ℕ => (n : ℚ))))

/-- The flattened `gaps` stream of the `compute_connectivity` loop
(lines 135-145): every consecutive-position difference of every text
row. -/
def gapsList (m : Mask) : List ℕ :=
  listJoin ((textRows m).map (fun r => diffsOf (positionsOf (rowAt m r))))

/-- `compute_connectivity` (lines 111-148): after the text-row and
zero-spread guards (the source tests `h_std == 0`; std = 0 iff the
variance returned here is 0), every consecutive-position difference of
every text row counts into `possible` and counts into `connections` when
it is at most 1; result is `connections / possible`. -/
def compute_connectivity (m : Mask) : ℚ :=
  if textRows m = [] then 0
  else if (compute_letter_sizes m).2 = 0 then 0
  else
    let possible := (gapsList m).length
    let connections := ((gapsList m).filter (fun g => decide (g ≤ 1))).length
    if possible = 0 then 0 else (connections : ℚ) / possible

/-- `assess_skill_level` (lines 151-178).  `sqrtQ` is the square-root
oracle used to model the `np.std` applied to the slant list. -/
def assess_skill_level (sqrtQ : ℚ → ℚ) (size_std spacing_std : ℚ)
    (slant_values : List ℚ) : String :=
  let variation := size_std + spacing_std +
    (if slant_values = [] then 0 else sqrtQ (qvariance slant_values))
  if variation < 5 then "высокая"
  else if variation < 15 then "средняя"
  else "низкая"

/-! ## Concrete images -/

/-- The synthetic two-rectangle image of the repository's test suite
(`test_general_features.py`): a 50×100 black image with two filled white
rectangles drawn by `cv2.rectangle(img, (10,15), (20,35), 255, -1)` and
`cv2.rectangle(img, (40,15), (50,35), 255, -1)` (OpenCV fills both corner
columns and rows inclusively). -/
def twoRectMask : Mask :=
  (List.range 50).map (fun r => (List.range 100).map (fun c =>
    if (15 ≤ r ∧ r ≤ 35) ∧ ((10 ≤ c ∧ c ≤ 20) ∨ (40 ≤ c ∧ c ≤ 50)) then 255 else 0))

/-- A 6×11 mask with two solid rectangles of different heights:
rows 0-5 × columns 0-3 (area 24, height 6) and rows 0-4 × columns 7-10
(area 20, height 5).  Both pass the noise floor under the pixel count
(24, 20) and under the polygonal contour area (15, 12). -/
def twoColMask : Mask :=
  (List.range 6).map (fun r => (List.range 11).map (fun c =>
    if c ≤ 3 ∨ (r ≤ 4 ∧ 7 ≤ c) then 255 else 0))

/-- `twoColMask` plus one isolated foreground pixel at row 0, column 5
(a single-pixel component: pixel count 1, contour area 0, both below the
noise floor; it touches neither rectangle, even diagonally). -/
def twoColNoiseMask : Mask :=
  (List.range 6).map (fun r => (List.range 11).map (fun c =>
    if c ≤ 3 ∨ (r ≤ 4 ∧ 7 ≤ c) ∨ (r = 0 ∧ c = 5) then 255 else 0))

/-- A one-row mask whose only foreground pixels are two isolated single
pixels (columns 0 and 5): every component is far below the noise floor. -/
def noisePixelMask : Mask := [[255, 0, 0, 0, 0, 255]]

/-! ## `comparative.py` -/

/-- `_categorize_size` (lines 15-22): 0 small, 1 medium, 2 large. -/
def _categorize_size (avg_height : ℚ) : ℕ :=
  if avg_height < 15 then 0 else if avg_height < 30 then 1 else 2

/-- The per-metric detail record built by `compare_images` (the Python
dict with keys `size_avg`, `spacing_avg`, `slant`, `connectivity`). -/
structure CompareDetails where
  size_avg : ℚ × ℚ
  spacing_avg : ℚ × ℚ
  slant : ℚ × ℚ
  connectivity : ℚ × ℚ
deriving DecidableEq

/-- `compare_images` (lines 25-76), after loading and preprocessing:
`proc_a`/`proc_b` are the two preprocessed masks and `fit` is the
`cv2.fitEllipse` slant oracle of `compute_slant`. -/
def compare_images (fit : Mask → ℚ) (proc_a proc_b : Mask) : ℚ × CompareDetails :=
  let size_a := (compute_letter_sizes proc_a).1
  let space_a := (compute_spacing proc_a).1
  let slant_a := fit proc_a
  let conn_a := compute_connectivity proc_a
  let size_b := (compute_letter_sizes proc_b).1
  let space_b := (compute_spacing proc_b).1
  let slant_b := fit proc_b
  let conn_b := compute_connectivity proc_b
  let details : CompareDetails :=
    ⟨(size_a, size_b), (space_a, space_b), (slant_a, slant_b), (conn_a, conn_b)⟩
  let cat_a := _categorize_size size_a
  let cat_b := _categorize_size size_b
  let diff_cat := ((cat_a : ℤ) - (cat_b : ℤ)).natAbs
  let score_size := 1 - min ((diff_cat : ℚ) / 2) 1
  let max_space := max space_a (max space_b (1 / 1000))
  let diff_space := |space_a - space_b| / max_space
  let score_spacing := 1 - min diff_space 1
  let diff_slant := |slant_a - slant_b| / 90
  let score_slant := 1 - min diff_slant 1
  let diff_conn := |conn_a - conn_b|
  let score_conn := 1 - min diff_conn 1
  let similarity := (score_size + score_spacing + score_slant + score_conn) / 4
  (similarity, details)

/-- `interpret_similarity` (lines 79-90). -/
def interpret_similarity (similarity : ℚ) : String :=
  if similarity ≥ 3 / 4 then "высокая степень сходства (возможно, выполнял один исполнитель)"
  else if similarity ≥ 1 / 2 then "умеренная степень сходства (необходимо дополнительное исследование)"
  else "низкая степень сходства (вероятно, разные исполнители)"

/-! ## Claim-side score formulas (C1's wording) -/

/-- Size score as worded by the claim: `1 - min(|cat_A - cat_B| / 2, 1)`
over the 3-bucket size categories. -/
def scoreSizeClaim (a b : ℚ) : ℚ :=
  1 - min (|(_categorize_size a : ℚ) - (_categorize_size b : ℚ)| / 2) 1

/-- Spacing score as worded by the claim:
`1 - min(|gapA - gapB| / max(gapA, gapB, 1e-3), 1)`. -/
def scoreSpacingClaim (a b : ℚ) : ℚ := 1 - min (|a - b| / max a (max b (1 / 1000))) 1

/-- Slant score as worded by the claim: `1 - min(|angleA - angleB| / 90, 1)`. -/
def scoreSlantClaim (a b : ℚ) : ℚ := 1 - min (|a - b| / 90) 1

/-- Connectivity score as worded by the claim: `1 - min(|connA - connB|, 1)`. -/
def scoreConnClaim (a b : ℚ) : ℚ := 1 - min |a - b| 1

/-! ## `preprocessing.py`: `segment_text` -/

/-- Slice of the rows `[s, e)` of an image: `image[s:e, :]`. -/
def sliceRows (m : Mask) (s e : ℕ) : Mask := (m.drop s).take (e - s)

/-- The row scan of `segment_text` (lines 73-89): walks the projection
with the `in_line` flag and the opening row `s`, and emits each strip as
the half-open row interval `(start_row, end_row)`; a strip still open at
the end of the projection is closed at the image height.  The height
filter `> 2` that the source applies to each emitted slice is applied by
`segment_text` below to the same intervals. -/
def line_scan (thr : ℚ) : List ℕ → ℕ → Bool → ℕ → List (ℕ × ℕ)
  | [], i, inLine, s => if inLine then [(s, i)] else []
  | v :: vs, i, inLine, s =>
    if thr < (v : ℚ) then
      if inLine then line_scan thr vs (i + 1) true s
      else line_scan thr vs (i + 1) true i
    else
      if inLine then (s, i) :: line_scan thr vs (i + 1) false s
      else line_scan thr vs (i + 1) false s

/-- `segment_text(image, line_threshold)` (lines 50-92): empty when the
projection maximum is zero, otherwise the scanned strips of height
greater than 2, as row slices of the image. -/
def segment_text (image : Mask) (line_threshold : ℚ) : List Mask :=
  let projection := maskProj image
  let max_val := maxProj image
  if max_val = 0 then []
  else
    let threshold_value := (max_val : ℚ) * line_threshold
    ((line_scan threshold_value projection 0 false 0).map
      (fun p => sliceRows image p.1 p.2)).filter (fun line_img => decide (2 < line_img.length))

/-- Length of the initial segment of the projection that exceeds the
threshold (used by the maximal-run specification `maximal_runs`). -/
def lead_count (thr : ℚ) (vs : List ℕ) : ℕ :=
  (vs.takeWhile (fun v : ℕ => decide (thr < (v : ℚ)))).length

/-- Specification for C4, written independently of the stateful scan: the
maximal intervals of consecutive rows whose projection exceeds the
threshold, in top-to-bottom order, as half-open index intervals. -/
def maximal_runs (thr : ℚ) : List ℕ → List (ℕ × ℕ)
  | [] => []
  | v :: vs =>
    if thr < (v : ℚ) then
      let k := 1 + lead_count thr vs
      (0, k) :: (maximal_runs thr (vs.drop (lead_count thr vs))).map (fun p => (p.1 + k, p.2 + k))
    else (maximal_runs thr vs).map (fun p => (p.1 + 1, p.2 + 1))
termination_by l => l.length
decreasing_by
  · simp only [List.length_cons, List.length_drop]
    omega
  · simp

/-! ## Claim-side connectivity (C2's wording) -/

/-- Inter-run horizontal gaps of one row: for consecutive maximal runs,
the number of empty columns between them. -/
def interRunGaps (runs : List Run) : List ℕ :=
  (runs.zip runs.tail).map (fun q => q.2.lo - q.1.hi - 1)

/-- The inter-run gaps of all text rows, as described by the claim. -/
def claimGapsList (m : Mask) : List ℕ :=
  listJoin ((textRows m).map (fun r => interRunGaps (runsFromPositions r (positionsOf (rowAt m r)))))

/-- All pairs of horizontally consecutive foreground-pixel positions of
the text rows (used to state the amended form of C2 independently of the
`np.diff` formulation). -/
def pairsList (m : Mask) : List (ℕ × ℕ) :=
  listJoin ((textRows m).map (fun r =>
    (positionsOf (rowAt m r)).zip (positionsOf (rowAt m r)).tail))

/-- Modelled from the wording of claim C2 / spec §4.2: the same row scan
as the spacing extractor, counting every inter-run (inter-component)
horizontal gap as one possible connection, a gap connected exactly when
it is at most 1 pixel, ratio `connected / possible`, and 0.0 when no
gaps exist or when the overall component-height spread is zero. -/
def connectivityClaimed (m : Mask) : ℚ :=
  if textRows m = [] then 0
  else if (compute_letter_sizes m).2 = 0 then 0
  else if (claimGapsList m).length = 0 then 0
  else (((claimGapsList m).filter (fun g => decide (g ≤ 1))).length : ℚ) / (claimGapsList m).length

/-! ## `time_gap.py` -/

/-- Decimal rendering of a rational with `d` fractional digits, modelling
Python's `f"{x:.df}"` format (rounding to nearest; the tie-breaking and
binary-float artefacts of CPython's formatting are not reproduced — no
property below inspects a rendered digit). -/
def fmtFixed (d : ℕ) (q : ℚ) : String :=
  let n : ℤ := round (q * (10 ^ d : ℚ))
  let sign := if n < 0 then "-" else ""
  let a := n.natAbs
  let ip := a / 10 ^ d
  let fp := a % 10 ^ d
  let fs := toString fp
  let pad := String.mk (List.replicate (d - fs.length) '0')
  sign ++ toString ip ++ "." ++ pad ++ fs

/-- `os.path.basename` for POSIX-style paths. -/
def basenameOf (path : String) : String := (path.splitOn "/").getLastD ""

/-- The feature quadruple gathered per sample by `analyze_time_gap`
(lines 36-40): size mean, spacing mean, slant, connectivity. -/
def featuresOf (fit : Mask → ℚ) (m : Mask) : ℚ × ℚ × ℚ × ℚ :=
  ((compute_letter_sizes m).1, (compute_spacing m).1, fit m, compute_connectivity m)

/-- `[p.strip() for p in image_paths.split(',') if p.strip()]` (line 26). -/
def parsePaths (image_paths : String) : List String :=
  ((image_paths.splitOn ",").map (fun p => p.trim)).filter (fun p => decide (p ≠ ""))

/-- The loop of `analyze_time_gap` (lines 30-40): load and measure each
path in order; the `except FileNotFoundError` branch returns the
"file not found" message immediately, abandoning the whole batch. -/
def collectSamples (fit : Mask → ℚ) (env : String → Option Mask) :
    List String → Except String (List (String × (ℚ × ℚ × ℚ × ℚ)))
  | [] => Except.ok []
  | p :: rest =>
    match env p with
    | none => Except.error ("Файл " ++ p ++ " не найден.")
    | some m =>
      match collectSamples fit env rest with
      | Except.error e => Except.error e
      | Except.ok l => Except.ok ((basenameOf p, featuresOf fit m) :: l)

/-- One "Образец …" line of the report (lines 43-46). -/
def sampleLine (idx : ℕ) (s : String × (ℚ × ℚ × ℚ × ℚ)) : String :=
  "Образец " ++ toString (idx + 1) ++ " (" ++ s.1 ++ "): средний размер " ++
    fmtFixed 1 s.2.1 ++ " px, интервал " ++ fmtFixed 1 s.2.2.1 ++ " px, наклон " ++
    fmtFixed 1 s.2.2.2.1 ++ "°, связность " ++ fmtFixed 2 s.2.2.2.2

/-- Report assembly of `analyze_time_gap` (lines 41-59): a header, one
line per sample, and — when there are at least two samples — the
last-minus-first dynamics block. -/
def timeGapReport (results : List (String × (ℚ × ℚ × ℚ × ℚ))) : String :=
  let base := "Анализ почерка с разрывом во времени:" ::
    (results.enum.map (fun p => sampleLine p.1 p.2))
  let all :=
    if 2 ≤ results.length then
      let first := results.headD ("", (0, 0, 0, 0))
      let last := results.getLastD ("", (0, 0, 0, 0))
      base ++ ["\nДинамика изменений (последний - первый образец):",
        "Δ размер = " ++ fmtFixed 1 (last.2.1 - first.2.1) ++ " px, Δ интервал = " ++
          fmtFixed 1 (last.2.2.1 - first.2.2.1) ++ " px, " ++ "Δ наклон = " ++
          fmtFixed 1 (last.2.2.2.1 - first.2.2.2.1) ++ "°, Δ связность = " ++
          fmtFixed 2 (last.2.2.2.2 - first.2.2.2.2)]
    else base
  String.intercalate "\n" all

/-- `analyze_time_gap` (lines 16-59).  `env` models `load_image` composed
with `preprocess_image` (`none` exactly when `load_image` raises
`FileNotFoundError`); `fit` is the slant oracle. -/
def analyze_time_gap (fit : Mask → ℚ) (env : String → Option Mask)
    (image_paths : String) : String :=
  let paths := parsePaths image_paths
  if paths = [] then "Путь к изображению не указан."
  else
    match collectSamples fit env paths with
    | Except.error msg => msg
    | Except.ok results => timeGapReport results

/-! ## The per-heuristic wrapper modules -/

/-- The message of the `FileNotFoundError` raised by `load_image`
(`preprocessing.py` line 24); each wrapper returns `str(exc)`, i.e.
exactly this string. -/
def loadErrorMsg (path : String) : String := "Не удалось загрузить изображение: " ++ path

/-- `analyze_left_hand` (`left_hand.py` lines 11-38). -/
def analyze_left_hand (env : String → Option Mask) (fit : Mask → ℚ) (image_path : String) :
    String :=
  match env image_path with
  | none => loadErrorMsg image_path
  | some proc =>
    let slant := fit proc
    let connectivity := compute_connectivity proc
    let verdict :=
      if slant < -10 ∧ connectivity < 3 / 10 then
        "вероятно, письмо выполнено левой рукой (наклон влево, низкая связность)"
      else if slant < -5 then "возможно письмо левой рукой (наклон влево)"
      else "признаков письма левой рукой не обнаружено"
    "Анализ письма левой рукой (" ++ image_path ++ "):\n" ++
      "Средний наклон: " ++ fmtFixed 1 slant ++ "°\n" ++
      "Коэффициент связности: " ++ fmtFixed 2 connectivity ++ "\n" ++
      "Вывод: " ++ verdict ++ "."

/-- `analyze_imitation` (`imitation.py` lines 16-53).  `compactOf` is the
oracle for the per-contour compactness `perimeter² / (4π·area)`
(`cv2.arcLength` and π are not reproducible arithmetically); the area
filter `area < 20 → skip` is kept concrete.  The source's dead second
guard (`area == 0` after `area ≥ 20`) is unreachable and omitted. -/
def analyze_imitation (env : String → Option Mask) (compactOf : Comp → ℚ)
    (image_path : String) : String :=
  match env image_path with
  | none => loadErrorMsg image_path
  | some proc =>
    let compactness_values :=
      ((componentsOf proc).filter (fun c => decide (20 ≤ compArea c))).map compactOf
    if compactness_values = [] then
      "На изображении " ++ image_path ++ " не найдено элементов для анализа имитации."
    else
      let mean_compactness := qmean compactness_values
      let verdict :=
        if 10 < mean_compactness then
          "признаки подражания (возможно, письмо обведено/сильно замедлено)"
        else if 6 < mean_compactness then "возможны признаки подражания"
        else "признаков подражания не обнаружено"
      "Анализ подражания (" ++ image_path ++ "):\n" ++
        "Средняя компактность штрихов: " ++ fmtFixed 1 mean_compactness ++ "\n" ++
        "Вывод: " ++ verdict ++ "."

/-- `analyze_handwriting` (`basic_analysis.py` lines 14-82).  `sqrtQ` is
the square-root oracle through which the `np.std` values (square roots
of the variances our extractors return) are rendered and fed to
`assess_skill_level`. -/
def analyze_handwriting (env : String → Option Mask) (fit : Mask → ℚ) (sqrtQ : ℚ → ℚ)
    (image_path : String) : String :=
  match env image_path with
  | none => loadErrorMsg image_path
  | some processed =>
    let lines := segment_text processed (1 / 10)
    let num_lines := lines.length
    if num_lines = 0 then
      "Обработано изображение: " ++ image_path ++ ". Текст на изображении не обнаружен. " ++
        "Пожалуйста, убедитесь, что файл содержит рукописный текст."
    else
      let avg_height := (compute_letter_sizes processed).1
      let std_height := sqrtQ (compute_letter_sizes processed).2
      let spacing_mean := (compute_spacing processed).1
      let spacing_std := sqrtQ (compute_spacing processed).2
      let slant_angle := fit processed
      let connectivity := compute_connectivity processed
      let size_category :=
        if avg_height < 15 then "малый" else if avg_height < 30 then "средний" else "крупный"
      let spacing_category :=
        if spacing_mean < 3 then "узкий" else if spacing_mean < 7 then "средний" else "широкий"
      let slant_category :=
        if slant_angle > 5 then "правый" else if slant_angle < -5 then "левый" else "прямой"
      let skill := assess_skill_level sqrtQ std_height spacing_std []
      String.intercalate "\n"
        ["Изображение: " ++ image_path,
         "Количество строк: " ++ toString num_lines,
         "Средний размер букв: " ++ fmtFixed 1 avg_height ++ " пикселей (" ++ size_category ++ ")",
         "Стандартное отклонение размера: " ++ fmtFixed 1 std_height ++ " пикселей",
         "Разгон (интервал) между буквами: " ++ fmtFixed 1 spacing_mean ++ " пикселей (" ++
           spacing_category ++ ")",
         "Стандартное отклонение разгонов: " ++ fmtFixed 1 spacing_std,
         "Наклон штрихов: " ++ fmtFixed 1 slant_angle ++ "° (" ++ slant_category ++ ")",
         "Коэффициент связности: " ++ fmtFixed 2 connectivity,
         "Степень выработанности: " ++ skill,
         "Частные признаки и дальнейший сравнительный анализ будут реализованы на следующих этапах."]

/-! ## Evaluation lemmas

`Rat` arithmetic does not reduce definitionally (its normalisation uses
`Nat.gcd`), so the concrete facts below are obtained by first computing
the ℕ-level content of each extractor with `decide` and then finishing
the thin ℚ layer with `norm_num`.  The bridge is the exact equivalence
`0.1·max < v  ↔  max < 10·v` for the text-row threshold. -/

lemma idxFilter_congr {α : Type} {p q : α → Bool} (h : ∀ a, p a = q a) :
    ∀ (l : List α) (i : ℕ), idxFilter p l i = idxFilter q l i := by
  intro l
  induction l with
  | nil => intro i; rfl
  | cons v vs ih => intro i; simp only [idxFilter, h v, ih]

lemma rowThreshold_lt_iff (m : Mask) (v : ℕ) :
    rowThreshold m < (v : ℚ) ↔ maxProj m < 10 * v := by
  unfold rowThreshold
  rcases Nat.eq_zero_or_pos (maxProj m) with h0 | hpos
  · simp only [h0, lt_irrefl, if_false, Nat.cast_pos]
    omega
  · rw [if_pos hpos]
    rw [show (1 / 10 : ℚ) * (maxProj m : ℚ) = (maxProj m : ℚ) / 10 by ring]
    rw [div_lt_iff₀ (by norm_num : (0 : ℚ) < 10)]
    rw [show ((v : ℚ) * 10) = ((10 * v : ℕ) : ℚ) by push_cast; ring]
    exact Nat.cast_lt

/-- The text-row selection with the threshold comparison carried out in
ℕ (`rows_sum > 0.1 * max` iff `10 * rows_sum > max`). -/
lemma textRows_nat (m : Mask) :
    textRows m = idxFilter (fun v => decide (maxProj m < 10 * v)) (maskProj m) 0 := by
  unfold textRows
  exact idxFilter_congr (fun v => decide_eq_decide.mpr (rowThreshold_lt_iff m v)) (maskProj m) 0

lemma qmean_replicate (n : ℕ) (x : ℚ) (h : n ≠ 0) : qmean (List.replicate n x) = x := by
  simp only [qmean, List.sum_replicate, List.length_replicate, nsmul_eq_mul]
  exact mul_div_cancel_left₀ x (Nat.cast_ne_zero.mpr h)

lemma qvariance_replicate (n : ℕ) (x : ℚ) (h : n ≠ 0) :
    qvariance (List.replicate n x) = 0 := by
  simp only [qvariance, List.map_replicate, qmean_replicate n x h, sub_self]
  simp [List.sum_replicate]

/-! ### Concrete values of the extractors on the synthetic images -/

lemma textRows_twoRect : textRows twoRectMask = List.range' 15 21 := by
  rw [textRows_nat]; decide

lemma spacings_twoRect : spacingsList twoRectMask = List.replicate 21 19 := by
  simp only [spacingsList, textRows_twoRect]; decide

lemma spacing_twoRect : compute_spacing twoRectMask = (19, 0) := by
  have hne : textRows twoRectMask ≠ [] := by rw [textRows_twoRect]; decide
  simp only [compute_spacing, spacings_twoRect, hne, if_false, List.map_replicate]
  rw [if_neg (by decide), qmean_replicate 21 _ (by decide), qvariance_replicate 21 _ (by decide)]
  norm_num

lemma heights_twoRect : heightsList twoRectMask = List.replicate 2 21 := by decide

lemma letter_sizes_twoRect : compute_letter_sizes twoRectMask = (21, 0) := by
  simp only [compute_letter_sizes, heights_twoRect, List.map_replicate]
  rw [if_neg (by decide), qmean_replicate 2 _ (by decide), qvariance_replicate 2 _ (by decide)]
  norm_num

lemma heights_noisePixel : heightsList noisePixelMask = [] := by decide

lemma letter_sizes_noisePixel : compute_letter_sizes noisePixelMask = (0, 0) := by
  simp only [compute_letter_sizes, heights_noisePixel, if_pos]

lemma textRows_noisePixel : textRows noisePixelMask = [0] := by
  rw [textRows_nat]; decide

lemma spacings_noisePixel : spacingsList noisePixelMask = List.replicate 1 4 := by
  simp only [spacingsList, textRows_noisePixel]; decide

lemma spacing_noisePixel : compute_spacing noisePixelMask = (4, 0) := by
  have hne : textRows noisePixelMask ≠ [] := by rw [textRows_noisePixel]; decide
  simp only [compute_spacing, spacings_noisePixel, hne, if_false, List.map_replicate]
  rw [if_neg (by decide), qmean_replicate 1 _ (by decide), qvariance_replicate 1 _ (by decide)]
  norm_num

lemma heights_twoCol : heightsList twoColMask = [5, 6] := by decide

lemma letter_sizes_twoCol : compute_letter_sizes twoColMask = (11 / 2, 1 / 4) := by
  simp only [compute_letter_sizes, heights_twoCol]
  rw [if_neg (by decide)]
  simp only [List.map_cons, List.map_nil, qmean, qvariance, List.sum_cons, List.sum_nil,
    List.length_cons, List.length_nil]
  norm_num

lemma heights_twoColNoise : heightsList twoColNoiseMask = [5, 6] := by decide

lemma letter_sizes_twoColNoise :
    compute_letter_sizes twoColNoiseMask = compute_letter_sizes twoColMask := by
  simp only [compute_letter_sizes, heights_twoColNoise, heights_twoCol]

lemma textRows_twoCol : textRows twoColMask = List.range 6 := by
  rw [textRows_nat]; decide

lemma conn_twoCol : compute_connectivity twoColMask = 33 / 38 := by
  have hne : textRows twoColMask ≠ [] := by rw [textRows_twoCol]; decide
  have hvar : ((compute_letter_sizes twoColMask).2 = 0) = False := by
    rw [letter_sizes_twoCol]; norm_num
  have hlen : (gapsList twoColMask).length = 38 := by
    simp only [gapsList, textRows_twoCol]; decide
  have hconn : ((gapsList twoColMask).filter (fun g => decide (g ≤ 1))).length = 33 := by
    simp only [gapsList, textRows_twoCol]; decide
  simp only [compute_connectivity, hne, if_false, hvar, hlen, hconn]
  rw [if_neg (by decide)]
  norm_num

lemma textRows_twoColNoise : textRows twoColNoiseMask = List.range 6 := by
  rw [textRows_nat]; decide

lemma conn_twoColNoise : compute_connectivity twoColNoiseMask = 33 / 39 := by
  have hne : textRows twoColNoiseMask ≠ [] := by rw [textRows_twoColNoise]; decide
  have hvar : ((compute_letter_sizes twoColNoiseMask).2 = 0) = False := by
    rw [letter_sizes_twoColNoise, letter_sizes_twoCol]; norm_num
  have hlen : (gapsList twoColNoiseMask).length = 39 := by
    simp only [gapsList, textRows_twoColNoise]; decide
  have hconn : ((gapsList twoColNoiseMask).filter (fun g => decide (g ≤ 1))).length = 33 := by
    simp only [gapsList, textRows_twoColNoise]; decide
  simp only [compute_connectivity, hne, if_false, hvar, hlen, hconn]
  rw [if_neg (by decide)]
  norm_num

lemma conn_twoRect : compute_connectivity twoRectMask = 0 := by
  have hvar : (compute_letter_sizes twoRectMask).2 = 0 := by
    rw [letter_sizes_twoRect]
  simp [compute_connectivity, hvar]

lemma claimed_conn_twoCol : connectivityClaimed twoColMask = 0 := by
  have hne : textRows twoColMask ≠ [] := by rw [textRows_twoCol]; decide
  have hvar : ((compute_letter_sizes twoColMask).2 = 0) = False := by
    rw [letter_sizes_twoCol]; norm_num
  have hcg : claimGapsList twoColMask = List.replicate 5 3 := by
    simp only [claimGapsList, textRows_twoCol]; decide
  simp only [connectivityClaimed, hne, if_false, hvar, hcg]
  rw [if_neg (by decide)]
  simp [List.filter_replicate]

/-! ## Claim theorems -/

lemma interpret_eq_high {s : ℚ} (h : 3 / 4 ≤ s) :
    interpret_similarity s =
      "высокая степень сходства (возможно, выполнял один исполнитель)" := by
  unfold interpret_similarity
  rw [if_pos h]

lemma interpret_eq_mod {s : ℚ} (h1 : ¬ 3 / 4 ≤ s) (h2 : 1 / 2 ≤ s) :
    interpret_similarity s =
      "умеренная степень сходства (необходимо дополнительное исследование)" := by
  unfold interpret_similarity
  rw [if_neg h1, if_pos h2]

lemma interpret_eq_low {s : ℚ} (h1 : ¬ 3 / 4 ≤ s) (h2 : ¬ 1 / 2 ≤ s) :
    interpret_similarity s =
      "низкая степень сходства (вероятно, разные исполнители)" := by
  unfold interpret_similarity
  rw [if_neg h1, if_neg h2]

lemma verdict_high_ne_mod :
    ("высокая степень сходства (возможно, выполнял один исполнитель)" : String) ≠
      "умеренная степень сходства (необходимо дополнительное исследование)" := by decide

lemma verdict_high_ne_low :
    ("высокая степень сходства (возможно, выполнял один исполнитель)" : String) ≠
      "низкая степень сходства (вероятно, разные исполнители)" := by decide

lemma verdict_mod_ne_low :
    ("умеренная степень сходства (необходимо дополнительное исследование)" : String) ≠
      "низкая степень сходства (вероятно, разные исполнители)" := by decide

/-- Claim C3: `interpret_similarity` is a pure step function of its
numeric argument: the high-similarity verdict is returned exactly for
s ≥ 0.75, the moderate verdict exactly for 0.5 ≤ s < 0.75, the
low-similarity verdict exactly for s < 0.5; in particular 0.75 maps to
high, 0.74999 and 0.5 map to moderate, and 0.49999 maps to low. -/
theorem interpret_similarity_step (s : ℚ) :
    (interpret_similarity s =
        "высокая степень сходства (возможно, выполнял один исполнитель)" ↔ 3 / 4 ≤ s) ∧
    (interpret_similarity s =
        "умеренная степень сходства (необходимо дополнительное исследование)" ↔
      1 / 2 ≤ s ∧ s < 3 / 4) ∧
    (interpret_similarity s =
        "низкая степень сходства (вероятно, разные исполнители)" ↔ s < 1 / 2) ∧
    interpret_similarity (3 / 4) =
      "высокая степень сходства (возможно, выполнял один исполнитель)" ∧
    interpret_similarity (74999 / 100000) =
      "умеренная степень сходства (необходимо дополнительное исследование)" ∧
    interpret_similarity (1 / 2) =
      "умеренная степень сходства (необходимо дополнительное исследование)" ∧
    interpret_similarity (49999 / 100000) =
      "низкая степень сходства (вероятно, разные исполнители)" := by
  refine ⟨⟨fun h => ?_, interpret_eq_high⟩,
    ⟨fun h => ?_, fun h => interpret_eq_mod (not_le.mpr h.2) h.1⟩,
    ⟨fun h => ?_, fun h => interpret_eq_low (fun hc => absurd (le_trans (by norm_num) hc)
      (not_le.mpr h)) (not_le.mpr h)⟩,
    interpret_eq_high (by norm_num),
    interpret_eq_mod (by norm_num) (by norm_num),
    interpret_eq_mod (by norm_num) (by norm_num),
    interpret_eq_low (by norm_num) (by norm_num)⟩
  · by_contra hc
    by_cases h2 : (1 / 2 : ℚ) ≤ s
    · exact verdict_high_ne_mod ((interpret_eq_mod hc h2).symm.trans h).symm
    · exact verdict_high_ne_low ((interpret_eq_low hc h2).symm.trans h).symm
  · by_cases h1 : (3 / 4 : ℚ) ≤ s
    · exact absurd ((interpret_eq_high h1).symm.trans h) verdict_high_ne_mod
    · by_cases h2 : (1 / 2 : ℚ) ≤ s
      · exact ⟨h2, not_le.mp h1⟩
      · exact absurd ((interpret_eq_low h1 h2).symm.trans h).symm verdict_mod_ne_low
  · by_cases h1 : (3 / 4 : ℚ) ≤ s
    · exact absurd ((interpret_eq_high h1).symm.trans h) verdict_high_ne_low
    · by_cases h2 : (1 / 2 : ℚ) ≤ s
      · exact absurd ((interpret_eq_mod h1 h2).symm.trans h) verdict_mod_ne_low
      · exact not_le.mp h2

/-- Claim C7: on the two-rectangle image of the testable-properties
section (two non-overlapping, non-adjacent filled rectangles of
identical height), the connectivity extractor returns exactly 0.0. -/
theorem connectivity_two_rect_zero : compute_connectivity twoRectMask = 0 :=
  conn_twoRect

/-- Claim C6 counterexample: on the two-rectangle image (rows 15-35,
right edge of the first rectangle at x = 20, left edge of the second at
x = 40), `compute_spacing` returns a mean of 19, not 10 ± 1 as claimed
(and as the repository's own `test_compute_spacing` asserts). -/
theorem spacing_two_rect_not_ten :
    compute_spacing twoRectMask = (19, 0) ∧
    ¬ |(compute_spacing twoRectMask).1 - 10| ≤ 1 := by
  refine ⟨spacing_twoRect, ?_⟩
  rw [spacing_twoRect]
  norm_num

/-- Claim C6 as amended: on the two-rectangle image the spacing
extractor returns a mean gap of exactly 19 (the 20-pixel edge-to-edge
distance counts 19 strictly empty columns) and zero spread (the source's
standard deviation is the square root of the variance computed here). -/
theorem spacing_two_rect_value :
    (compute_spacing twoRectMask).1 = 19 ∧ (compute_spacing twoRectMask).2 = 0 := by
  rw [spacing_twoRect]
  exact ⟨rfl, rfl⟩

/-- Claim C5 counterexample: on a mask whose only foreground content is
two isolated single pixels — so every connected component has area 1,
below the 10 px² noise floor — the size extractor excludes everything
and returns (0, 0), yet the spacing extractor returns the mean gap 4
measured between those very pixels: measurements originating from
sub-noise-floor components do contribute to the spacing statistics. -/
theorem noise_floor_counterexample :
    (componentsOf noisePixelMask).map compArea = [1, 1] ∧
    compute_letter_sizes noisePixelMask = (0, 0) ∧
    compute_spacing noisePixelMask = (4, 0) :=
  ⟨by decide, letter_sizes_noisePixel, spacing_noisePixel⟩

/-- Claim C5 as amended: the noise floor is enforced by the component
finder used by the letter-size (and slant) extractor, but the spacing
and connectivity extractors scan raw row pixels without any component
filtering.  Concretely: adding one isolated sub-noise-floor pixel to
`twoColMask` leaves `compute_letter_sizes` unchanged (the new component,
of area 1, is filtered out), while `compute_connectivity` changes from
33/38 to 33/39. -/
theorem noise_floor_amended :
    compute_letter_sizes twoColNoiseMask = compute_letter_sizes twoColMask ∧
    ((componentsOf twoColNoiseMask).filter (fun c => decide (compArea c < 10))).map compArea
      = [1] ∧
    compute_connectivity twoColMask = 33 / 38 ∧
    compute_connectivity twoColNoiseMask = 33 / 39 :=
  ⟨letter_sizes_twoColNoise, by decide, conn_twoCol, conn_twoColNoise⟩

/-- Claim C2 counterexample: on `twoColMask` (two solid rectangles of
heights 6 and 5, so the height spread is nonzero) the claimed
inter-run-gap reading of the connectivity extractor yields 0 (the single
3-pixel inter-run gap of each double-run row is never "connected"),
while `compute_connectivity` actually returns 33/38: the code counts
every consecutive-position difference — including the within-run
differences of 1 — as a possible connection. -/
theorem connectivity_counterexample :
    compute_connectivity twoColMask = 33 / 38 ∧
    connectivityClaimed twoColMask = 0 ∧
    compute_connectivity twoColMask ≠ connectivityClaimed twoColMask := by
  refine ⟨conn_twoCol, claimed_conn_twoCol, ?_⟩
  rw [conn_twoCol, claimed_conn_twoCol]
  norm_num

/-- Claim C10: every per-heuristic wrapper (basic analysis, imitation,
left hand) catches the load failure and returns the failure message as
its ordinary report string — the caller always receives a `String`, for
any environment, slant/sqrt/compactness oracles and path. -/
theorem wrappers_catch_load_failure (env : String → Option Mask) (fit : Mask → ℚ)
    (sqrtQ : ℚ → ℚ) (compactOf : Comp → ℚ) (image_path : String)
    (h : env image_path = none) :
    analyze_handwriting env fit sqrtQ image_path = loadErrorMsg image_path ∧
    analyze_imitation env compactOf image_path = loadErrorMsg image_path ∧
    analyze_left_hand env fit image_path = loadErrorMsg image_path := by
  refine ⟨?_, ?_, ?_⟩
  · simp only [analyze_handwriting, h]
  · simp only [analyze_imitation, h]
  · simp only [analyze_left_hand, h]

/-- Witness for C10 at a concrete environment and path. -/
theorem wrappers_catch_load_failure_witness :
    analyze_handwriting (fun _ => none) (fun _ => 0) (fun q => q) "sample.png" =
      loadErrorMsg "sample.png" ∧
    analyze_imitation (fun _ => none) (fun _ => 0) "sample.png" = loadErrorMsg "sample.png" ∧
    analyze_left_hand (fun _ => none) (fun _ => 0) "sample.png" = loadErrorMsg "sample.png" :=
  wrappers_catch_load_failure (fun _ => none) (fun _ => 0) (fun q => q) (fun _ => 0)
    "sample.png" rfl

/-! ### The comparison formula (helpers shared by C1 and C9) -/

lemma natAbs_cast_sub (a b : ℕ) :
    ((((a : ℤ) - (b : ℤ)).natAbs : ℕ) : ℚ) = |(a : ℚ) - (b : ℚ)| := by
  rw [Int.cast_natAbs, Int.cast_abs]
  push_cast
  ring_nf

lemma compare_images_sim (fit : Mask → ℚ) (pa pb : Mask) :
    (compare_images fit pa pb).1 =
      (scoreSizeClaim (compute_letter_sizes pa).1 (compute_letter_sizes pb).1 +
        scoreSpacingClaim (compute_spacing pa).1 (compute_spacing pb).1 +
        scoreSlantClaim (fit pa) (fit pb) +
        scoreConnClaim (compute_connectivity pa) (compute_connectivity pb)) / 4 := by
  simp only [compare_images, scoreSizeClaim, scoreSpacingClaim, scoreSlantClaim, scoreConnClaim,
    natAbs_cast_sub]

lemma score_nonneg_le_one {x : ℚ} (hx : 0 ≤ x) : 0 ≤ 1 - min x 1 ∧ 1 - min x 1 ≤ 1 :=
  ⟨sub_nonneg.mpr (min_le_right x 1), sub_le_self 1 (le_min hx zero_le_one)⟩

lemma scoreSizeClaim_bounds (a b : ℚ) : 0 ≤ scoreSizeClaim a b ∧ scoreSizeClaim a b ≤ 1 :=
  score_nonneg_le_one (div_nonneg (abs_nonneg _) (by norm_num))

lemma max_space_pos (a b : ℚ) : 0 < max a (max b (1 / 1000)) :=
  lt_of_lt_of_le (by norm_num : (0 : ℚ) < 1 / 1000)
    ((le_max_right b (1 / 1000)).trans (le_max_right a (max b (1 / 1000))))

lemma scoreSpacingClaim_bounds (a b : ℚ) :
    0 ≤ scoreSpacingClaim a b ∧ scoreSpacingClaim a b ≤ 1 :=
  score_nonneg_le_one (div_nonneg (abs_nonneg _) (max_space_pos a b).le)

lemma scoreSlantClaim_bounds (a b : ℚ) : 0 ≤ scoreSlantClaim a b ∧ scoreSlantClaim a b ≤ 1 :=
  score_nonneg_le_one (div_nonneg (abs_nonneg _) (by norm_num))

lemma scoreConnClaim_bounds (a b : ℚ) : 0 ≤ scoreConnClaim a b ∧ scoreConnClaim a b ≤ 1 :=
  score_nonneg_le_one (abs_nonneg _)

/-- Claim C1: for every pair of successfully loaded and preprocessed
images (and any slant oracle), the similarity returned by
`compare_images` is the unweighted arithmetic mean of the four
per-metric scores, each written exactly as the claim words it, and
consequently always lies in [0, 1]. -/
theorem compare_images_unweighted_mean (fit : Mask → ℚ) (pa pb : Mask) :
    (compare_images fit pa pb).1 =
      (scoreSizeClaim (compute_letter_sizes pa).1 (compute_letter_sizes pb).1 +
        scoreSpacingClaim (compute_spacing pa).1 (compute_spacing pb).1 +
        scoreSlantClaim (fit pa) (fit pb) +
        scoreConnClaim (compute_connectivity pa) (compute_connectivity pb)) / 4 ∧
    0 ≤ (compare_images fit pa pb).1 ∧ (compare_images fit pa pb).1 ≤ 1 := by
  refine ⟨compare_images_sim fit pa pb, ?_, ?_⟩ <;> rw [compare_images_sim fit pa pb]
  · obtain ⟨h1, _⟩ := scoreSizeClaim_bounds (compute_letter_sizes pa).1 (compute_letter_sizes pb).1
    obtain ⟨h2, _⟩ := scoreSpacingClaim_bounds (compute_spacing pa).1 (compute_spacing pb).1
    obtain ⟨h3, _⟩ := scoreSlantClaim_bounds (fit pa) (fit pb)
    obtain ⟨h4, _⟩ := scoreConnClaim_bounds (compute_connectivity pa) (compute_connectivity pb)
    linarith
  · obtain ⟨_, h1⟩ := scoreSizeClaim_bounds (compute_letter_sizes pa).1 (compute_letter_sizes pb).1
    obtain ⟨_, h2⟩ := scoreSpacingClaim_bounds (compute_spacing pa).1 (compute_spacing pb).1
    obtain ⟨_, h3⟩ := scoreSlantClaim_bounds (fit pa) (fit pb)
    obtain ⟨_, h4⟩ := scoreConnClaim_bounds (compute_connectivity pa) (compute_connectivity pb)
    linarith

lemma scoreSizeClaim_comm (a b : ℚ) : scoreSizeClaim a b = scoreSizeClaim b a := by
  unfold scoreSizeClaim
  rw [abs_sub_comm]

lemma scoreSpacingClaim_comm (a b : ℚ) : scoreSpacingClaim a b = scoreSpacingClaim b a := by
  unfold scoreSpacingClaim
  rw [abs_sub_comm, max_left_comm]

lemma scoreSlantClaim_comm (a b : ℚ) : scoreSlantClaim a b = scoreSlantClaim b a := by
  unfold scoreSlantClaim
  rw [abs_sub_comm]

lemma scoreConnClaim_comm (a b : ℚ) : scoreConnClaim a b = scoreConnClaim b a := by
  unfold scoreConnClaim
  rw [abs_sub_comm]

/-- Claim C9: `compare_images` is symmetric in its two images — swapping
them yields exactly the same similarity coefficient, and each per-metric
detail pair of the swapped call is the reversal of the original pair. -/
theorem compare_images_symmetric (fit : Mask → ℚ) (pa pb : Mask) :
    (compare_images fit pa pb).1 = (compare_images fit pb pa).1 ∧
    (compare_images fit pa pb).2.size_avg =
      ((compare_images fit pb pa).2.size_avg.2, (compare_images fit pb pa).2.size_avg.1) ∧
    (compare_images fit pa pb).2.spacing_avg =
      ((compare_images fit pb pa).2.spacing_avg.2, (compare_images fit pb pa).2.spacing_avg.1) ∧
    (compare_images fit pa pb).2.slant =
      ((compare_images fit pb pa).2.slant.2, (compare_images fit pb pa).2.slant.1) ∧
    (compare_images fit pa pb).2.connectivity =
      ((compare_images fit pb pa).2.connectivity.2,
        (compare_images fit pb pa).2.connectivity.1) := by
  refine ⟨?_, rfl, rfl, rfl, rfl⟩
  rw [compare_images_sim fit pa pb, compare_images_sim fit pb pa,
    scoreSizeClaim_comm, scoreSpacingClaim_comm, scoreSlantClaim_comm, scoreConnClaim_comm]

/-! ### Amended connectivity characterisation (C2) -/

lemma listJoin_nil {α : Type} : listJoin ([] : List (List α)) = [] := rfl

lemma listJoin_cons {α : Type} (l : List α) (L : List (List α)) :
    listJoin (l :: L) = l ++ listJoin L := rfl

lemma listJoin_length {α : Type} (L : List (List α)) :
    (listJoin L).length = (L.map List.length).sum := by
  induction L with
  | nil => rfl
  | cons l L ih => simp [listJoin_cons, ih]

lemma listJoin_countP {α : Type} (p : α → Bool) (L : List (List α)) :
    (listJoin L).countP p = (L.map (List.countP p)).sum := by
  induction L with
  | nil => rfl
  | cons l L ih => simp [listJoin_cons, List.countP_append, ih]

lemma idxFilter_lower_bound {α : Type} (p : α → Bool) :
    ∀ (l : List α) (i : ℕ), ∀ x ∈ idxFilter p l i, i ≤ x := by
  intro l
  induction l with
  | nil => intro i x hx; simp [idxFilter] at hx
  | cons v vs ih =>
    intro i x hx
    by_cases hp : p v
    · simp only [idxFilter, hp, if_true, List.mem_cons] at hx
      rcases hx with rfl | hx
      · exact le_refl x
      · exact le_of_lt (lt_of_lt_of_le (Nat.lt_succ_self i) (ih (i + 1) x hx))
    · simp only [idxFilter, hp, if_false] at hx
      exact le_of_lt (lt_of_lt_of_le (Nat.lt_succ_self i) (ih (i + 1) x hx))

lemma idxFilter_pairwise {α : Type} (p : α → Bool) :
    ∀ (l : List α) (i : ℕ), List.Pairwise (· < ·) (idxFilter p l i) := by
  intro l
  induction l with
  | nil => intro i; simp [idxFilter]
  | cons v vs ih =>
    intro i
    by_cases hp : p v
    · simp only [idxFilter, hp, if_true]
      exact List.Pairwise.cons
        (fun x hx => lt_of_lt_of_le (Nat.lt_succ_self i) (idxFilter_lower_bound p vs (i + 1) x hx))
        (ih (i + 1))
    · simp only [idxFilter, hp, if_false]
      exact ih (i + 1)

lemma zip_tail_lt : ∀ {l : List ℕ}, List.Pairwise (· < ·) l →
    ∀ q ∈ l.zip l.tail, q.1 < q.2 := by
  intro l
  induction l with
  | nil => intro _ q hq; simp at hq
  | cons a t ih =>
    intro h q hq
    cases t with
    | nil => simp at hq
    | cons b t2 =>
      simp only [List.tail_cons, List.zip_cons_cons, List.mem_cons] at hq
      rcases hq with rfl | hq
      · exact (List.pairwise_cons.mp h).1 b (by simp)
      · exact ih h.of_cons q (by simpa [List.zip] using hq)

lemma diffs_length (l : List ℕ) : (diffsOf l).length = (l.zip l.tail).length :=
  List.length_map _ _

lemma diffs_count_le_one {l : List ℕ} (h : List.Pairwise (· < ·) l) :
    (diffsOf l).countP (fun g => decide (g ≤ 1)) =
      (l.zip l.tail).countP (fun q => decide (q.2 = q.1 + 1)) := by
  unfold diffsOf
  rw [List.countP_map]
  apply List.countP_congr
  intro q hq
  have hlt := zip_tail_lt h q hq
  simp only [Function.comp_apply, decide_eq_true_eq]
  omega

lemma gaps_pairs_length (m : Mask) : (gapsList m).length = (pairsList m).length := by
  unfold gapsList pairsList
  rw [listJoin_length, listJoin_length, List.map_map, List.map_map]
  refine congrArg List.sum (List.map_congr_left ?_)
  intro r _
  exact diffs_length (positionsOf (rowAt m r))

lemma gaps_pairs_count (m : Mask) :
    ((gapsList m).filter (fun g => decide (g ≤ 1))).length =
      ((pairsList m).filter (fun q => decide (q.2 = q.1 + 1))).length := by
  rw [← List.countP_eq_length_filter, ← List.countP_eq_length_filter]
  unfold gapsList pairsList
  rw [listJoin_countP, listJoin_countP, List.map_map, List.map_map]
  refine congrArg List.sum (List.map_congr_left ?_)
  intro r _
  exact diffs_count_le_one (idxFilter_pairwise _ (rowAt m r) 0)

/-- Claim C2 as amended: the connectivity extractor shares the text-row
scan of the spacing extractor, but it counts every pair of horizontally
consecutive foreground-pixel positions as one possible connection
(within-run pairs included) and counts a pair as connected exactly when
the two positions are adjacent (difference 1, so an inter-run gap is
never connected); it returns connected/possible, and 0.0 when there are
no such pairs or when the component-height spread is zero. -/
theorem compute_connectivity_amended (m : Mask) :
    compute_connectivity m =
      if textRows m = [] then 0
      else if (compute_letter_sizes m).2 = 0 then 0
      else if (pairsList m).length = 0 then 0
      else (((pairsList m).filter (fun q => decide (q.2 = q.1 + 1))).length : ℚ) /
        ((pairsList m).length : ℚ) := by
  simp only [compute_connectivity]
  by_cases h1 : textRows m = []
  · rw [if_pos h1, if_pos h1]
  · rw [if_neg h1, if_neg h1]
    by_cases h2 : (compute_letter_sizes m).2 = 0
    · rw [if_pos h2, if_pos h2]
    · rw [if_neg h2, if_neg h2, gaps_pairs_count m, gaps_pairs_length m]

/-! ### Time-gap batch behaviour (C8) -/

lemma collectSamples_eq (fit : Mask → ℚ) (env : String → Option Mask) :
    ∀ l : List String,
      collectSamples fit env l =
        match l.find? (fun p => (env p).isNone) with
        | some p => Except.error ("Файл " ++ p ++ " не найден.")
        | none =>
          Except.ok (l.map (fun p => (basenameOf p, featuresOf fit ((env p).getD [])))) := by
  intro l
  induction l with
  | nil => rfl
  | cons p rest ih =>
    cases henv : env p with
    | none =>
      rw [List.find?_cons_of_pos _ (by simp [henv])]
      simp [collectSamples, henv]
    | some mv =>
      rw [List.find?_cons_of_neg _ (by simp [henv])]
      simp only [collectSamples, henv, ih]
      cases hf : rest.find? (fun p => (env p).isNone) <;> simp [henv]

/-- Claim C8: for every comma-separated path list, the time-gap analysis
stops at the first path whose image fails to load and returns only the
"file not found" message naming that path (no per-image results); when
every path loads, it returns the full report assembled from one
measured sample per path.  (The embedding is a total function: the
`FileNotFoundError` is consumed by the `except` branch and never
escapes.) -/
theorem analyze_time_gap_first_failure (fit : Mask → ℚ) (env : String → Option Mask)
    (image_paths : String) :
    analyze_time_gap fit env image_paths =
      if parsePaths image_paths = [] then "Путь к изображению не указан."
      else
        match (parsePaths image_paths).find? (fun p => (env p).isNone) with
        | some p => "Файл " ++ p ++ " не найден."
        | none => timeGapReport ((parsePaths image_paths).map
            (fun p => (basenameOf p, featuresOf fit ((env p).getD [])))) := by
  unfold analyze_time_gap
  by_cases h : parsePaths image_paths = []
  · rw [if_pos h, if_pos h]
  · rw [if_neg h, if_neg h, collectSamples_eq]
    cases (parsePaths image_paths).find? (fun p => (env p).isNone) <;> rfl

/-! ### Line segmentation (C4) -/

lemma lead_count_le (thr : ℚ) (vs : List ℕ) : lead_count thr vs ≤ vs.length := by
  unfold lead_count
  have h := congrArg List.length
    (List.takeWhile_append_dropWhile (p := fun v : ℕ => decide (thr < (v : ℚ))) (l := vs))
  rw [List.length_append] at h
  omega

lemma lead_count_cons_pos {thr : ℚ} {v : ℕ} (vs : List ℕ) (h : thr < (v : ℚ)) :
    lead_count thr (v :: vs) = 1 + lead_count thr vs := by
  simp [lead_count, List.takeWhile_cons, h, Nat.add_comm]

lemma lead_count_cons_neg {thr : ℚ} {v : ℕ} (vs : List ℕ) (h : ¬ thr < (v : ℚ)) :
    lead_count thr (v :: vs) = 0 := by
  simp [lead_count, List.takeWhile_cons, h]

lemma maximal_runs_nil (thr : ℚ) : maximal_runs thr [] = [] := by
  unfold maximal_runs
  rfl

lemma maximal_runs_cons_pos {thr : ℚ} {v : ℕ} (vs : List ℕ) (h : thr < (v : ℚ)) :
    maximal_runs thr (v :: vs) =
      (0, 1 + lead_count thr vs) ::
        (maximal_runs thr (vs.drop (lead_count thr vs))).map
          (fun p => (p.1 + (1 + lead_count thr vs), p.2 + (1 + lead_count thr vs))) := by
  rw [maximal_runs]
  simp [h]

lemma maximal_runs_cons_neg {thr : ℚ} {v : ℕ} (vs : List ℕ) (h : ¬ thr < (v : ℚ)) :
    maximal_runs thr (v :: vs) = (maximal_runs thr vs).map (fun p => (p.1 + 1, p.2 + 1)) := by
  rw [maximal_runs]
  simp [h]

lemma line_scan_nil (thr : ℚ) (i s : ℕ) (inLine : Bool) :
    line_scan thr [] i inLine s = if inLine then [(s, i)] else [] := rfl

lemma line_scan_cons_pos_false {thr : ℚ} {v : ℕ} (vs : List ℕ) (i s : ℕ)
    (h : thr < (v : ℚ)) :
    line_scan thr (v :: vs) i false s = line_scan thr vs (i + 1) true i := by
  simp [line_scan, h]

lemma line_scan_cons_pos_true {thr : ℚ} {v : ℕ} (vs : List ℕ) (i s : ℕ)
    (h : thr < (v : ℚ)) :
    line_scan thr (v :: vs) i true s = line_scan thr vs (i + 1) true s := by
  simp [line_scan, h]

lemma line_scan_cons_neg_false {thr : ℚ} {v : ℕ} (vs : List ℕ) (i s : ℕ)
    (h : ¬ thr < (v : ℚ)) :
    line_scan thr (v :: vs) i false s = line_scan thr vs (i + 1) false s := by
  simp [line_scan, h]

lemma line_scan_cons_neg_true {thr : ℚ} {v : ℕ} (vs : List ℕ) (i s : ℕ)
    (h : ¬ thr < (v : ℚ)) :
    line_scan thr (v :: vs) i true s = (s, i) :: line_scan thr vs (i + 1) false s := by
  simp [line_scan, h]

/-- The stateful scan of `segment_text` computes exactly the maximal
above-threshold runs: started outside a line it yields the runs of the
remaining projection (indices shifted by `i`); started inside a line
opened at `s` it first closes the current run at the end of the leading
above-threshold prefix. -/
lemma line_scan_spec (thr : ℚ) :
    ∀ (vs : List ℕ) (i s : ℕ),
      line_scan thr vs i false s =
        (maximal_runs thr vs).map (fun p => (p.1 + i, p.2 + i)) ∧
      line_scan thr vs i true s =
        (s, i + lead_count thr vs) ::
          (maximal_runs thr (vs.drop (lead_count thr vs))).map
            (fun p => (p.1 + (i + lead_count thr vs), p.2 + (i + lead_count thr vs))) := by
  intro vs
  induction vs with
  | nil =>
    intro i s
    refine ⟨by simp [line_scan_nil, maximal_runs_nil], ?_⟩
    simp [line_scan_nil, maximal_runs_nil, lead_count]
  | cons v vs ih =>
    intro i s
    by_cases h : thr < (v : ℚ)
    · constructor
      · rw [line_scan_cons_pos_false vs i s h, (ih (i + 1) i).2, maximal_runs_cons_pos vs h,
          List.map_cons, List.map_map]
        refine List.cons_eq_cons.mpr ⟨by simp [Prod.ext_iff]; omega, ?_⟩
        refine List.map_congr_left ?_
        intro p _
        simp [Function.comp, Prod.ext_iff]
        omega
      · rw [line_scan_cons_pos_true vs i s h, (ih (i + 1) s).2, lead_count_cons_pos vs h,
          show 1 + lead_count thr vs = lead_count thr vs + 1 from Nat.add_comm _ _,
          List.drop_succ_cons]
        refine List.cons_eq_cons.mpr ⟨by simp [Prod.ext_iff]; omega, ?_⟩
        refine List.map_congr_left ?_
        intro p _
        simp [Prod.ext_iff]
        omega
    · constructor
      · rw [line_scan_cons_neg_false vs i s h, (ih (i + 1) s).1, maximal_runs_cons_neg vs h,
          List.map_map]
        refine List.map_congr_left ?_
        intro p _
        simp [Function.comp, Prod.ext_iff]
        omega
      · rw [line_scan_cons_neg_true vs i s h, (ih (i + 1) s).1, lead_count_cons_neg vs h,
          List.drop_zero, maximal_runs_cons_neg vs h, List.map_map]
        refine List.cons_eq_cons.mpr ⟨by simp [Prod.ext_iff], ?_⟩
        refine List.map_congr_left ?_
        intro p _
        simp [Function.comp, Prod.ext_iff]
        omega

/-- Every maximal run is a nonempty interval within the projection. -/
lemma maximal_runs_bounds (thr : ℚ) :
    ∀ (n : ℕ) (vs : List ℕ), vs.length ≤ n →
      ∀ p ∈ maximal_runs thr vs, p.1 < p.2 ∧ p.2 ≤ vs.length := by
  intro n
  induction n with
  | zero =>
    intro vs h p hp
    have hvs : vs = [] := List.length_eq_zero.mp (Nat.le_zero.mp h)
    subst hvs
    simp [maximal_runs_nil] at hp
  | succ n ih =>
    intro vs h p hp
    cases vs with
    | nil => simp [maximal_runs_nil] at hp
    | cons v vs =>
      by_cases hv : thr < (v : ℚ)
      · rw [maximal_runs_cons_pos vs hv] at hp
        rcases List.mem_cons.mp hp with rfl | hp
        · have := lead_count_le thr vs
          constructor
          · omega
          · simp only [List.length_cons]
            omega
        · obtain ⟨q, hq, rfl⟩ := List.mem_map.mp hp
          have hlen : (vs.drop (lead_count thr vs)).length ≤ n := by
            rw [List.length_drop]
            simp only [List.length_cons] at h
            omega
          have hb := ih (vs.drop (lead_count thr vs)) hlen q hq
          rw [List.length_drop] at hb
          have := lead_count_le thr vs
          constructor
          · omega
          · simp only [List.length_cons]
            omega
      · rw [maximal_runs_cons_neg vs hv] at hp
        obtain ⟨q, hq, rfl⟩ := List.mem_map.mp hp
        have hb := ih vs (by simp only [List.length_cons] at h; omega) q hq
        constructor
        · omega
        · simp only [List.length_cons]
          omega

lemma sliceRows_length {m : Mask} {s e : ℕ} (hse : s ≤ e) (he : e ≤ m.length) :
    (sliceRows m s e).length = e - s := by
  simp only [sliceRows, List.length_take, List.length_drop]
  omega

/-- Claim C4: with the default `line_threshold = 0.1`, `segment_text`
returns the empty sequence when the projection maximum is zero, and
otherwise returns exactly the row slices of the maximal runs of rows
whose projection exceeds `0.1 × max` (the open/close scan over the
projection), keeping only strips of height greater than 2. -/
theorem segment_text_spec (image : Mask) :
    segment_text image (1 / 10) =
      if maxProj image = 0 then []
      else
        ((maximal_runs ((maxProj image : ℚ) * (1 / 10)) (maskProj image)).filter
          (fun p => decide (2 < p.2 - p.1))).map (fun p => sliceRows image p.1 p.2) := by
  simp only [segment_text]
  by_cases h : maxProj image = 0
  · rw [if_pos h, if_pos h]
  · rw [if_neg h, if_neg h,
      (line_scan_spec ((maxProj image : ℚ) * (1 / 10)) (maskProj image) 0 0).1]
    have hid : (maximal_runs ((maxProj image : ℚ) * (1 / 10)) (maskProj image)).map
        (fun p => (p.1 + 0, p.2 + 0)) =
        maximal_runs ((maxProj image : ℚ) * (1 / 10)) (maskProj image) := by
      rw [show (fun p : ℕ × ℕ => (p.1 + 0, p.2 + 0)) = fun p : ℕ × ℕ => p from
        funext fun p => by simp]
      exact List.map_id _
    rw [hid, List.filter_map]
    refine congrArg _ (List.filter_congr ?_)
    intro p hp
    have hb := maximal_runs_bounds ((maxProj image : ℚ) * (1 / 10)) (maskProj image).length
      (maskProj image) le_rfl p hp
    have hlen : (sliceRows image p.1 p.2).length = p.2 - p.1 :=
      sliceRows_length hb.1.le (by
        have := hb.2
        rwa [maskProj, List.length_map] at this)
    simp [Function.comp, hlen]

